import Mathlib

/-!
Shallow embedding of the eczema-icp resource store
(`src/app/src/app_backend/src/lib.rs`), an Internet Computer canister that
keeps an in-memory keyed collection of "resources" with monotonic id
allocation, input validation, category/text filtering, an admin-gated
verify operation, and pre/post-upgrade persistence hooks.

Modelling conventions:
* Rust `String` is a list of Unicode scalar values (`List Char`); Rust
  `str::len` (UTF-8 byte count) is `rustLen`, and `str::is_empty` is
  emptiness of the list.
* `candid::Principal` is an opaque identity, modelled as `Nat`.
* The canister's thread-local state (`ECZEMA_RESOURCES`, `NEXT_ID`,
  `ADMIN`) is gathered in a `State` record that every operation takes and
  returns explicitly.  `HashMap<u64, EczemaResource>` is an association
  list whose insert replaces the value at an existing key; iteration order
  of `values()` is the list order.
* `get_timestamp()` reads the host clock, so each time-stamping operation
  takes the current time `now : Nat` as an explicit argument; likewise
  `ic_cdk::caller()` becomes an explicit `caller` argument.
* `u64` values (ids, `next_id`, timestamps) are modelled as `Nat`; the
  counter starts at 1 and is only ever incremented by one per call, so
  64-bit wrap-around is unreachable.
* Rust `str::contains` is substring occurrence, i.e. `List.IsInfix` on the
  character lists; `str::to_lowercase` is character-wise lowercasing.
* Stable memory: `ic_cdk::storage::stable_save` candid-serializes its
  argument starting at offset 0 of stable memory, and
  `ic_cdk::storage::stable_restore` deserializes from offset 0; candid
  decoding is type-directed, so a serialized `u64` does not decode as the
  resources map.  Stable memory is therefore modelled by the value that is
  decodable at offset 0, namely the most recently saved one.
-/

namespace EczemaICP

/-- Rust `String`, as its sequence of Unicode scalar values. -/
abbrev RStr := List Char

/-- `candid::Principal`, an opaque caller identity. -/
abbrev Principal := Nat

/-- Rust `str::len`: the length of the string in UTF-8 bytes. -/
def rustLen (s : RStr) : Nat := (s.map Char.utf8Size).sum

/-- The validation message for an out-of-bounds title. -/
def titleMsg : String := "Title must be 1-100 characters long."

/-- The validation message for an out-of-bounds description. -/
def descMsg : String := "Description must be 1-500 characters long."

/-- The failure produced when stable data does not decode at the expected
type (`stable_restore` returns `Err`, and `.unwrap()` in `post_upgrade`
traps). -/
def decodeFailMsg : String := "failed to decode stable data"

/-- `enum ResourceCategory` from the source. -/
inductive ResourceCategory where
  | Treatment
  | Prevention
  | Research
  | DietAdvice
  | Testimonial
  | MedicalAdvice
deriving DecidableEq

/-- `struct EczemaResource` from the source. -/
structure EczemaResource where
  id : Nat
  title : RStr
  description : RStr
  category : ResourceCategory
  created_at : Nat
  updated_at : Nat
  verified : Bool
deriving DecidableEq

/-- `struct CreateResourcePayload` from the source. -/
structure CreateResourcePayload where
  title : RStr
  description : RStr
  category : ResourceCategory
deriving DecidableEq

/-- `enum EczemaError` from the source. -/
inductive EczemaError where
  | NotFound
  | AlreadyExists
  | InvalidInput (msg : String)
  | Unauthorized
deriving DecidableEq

/-- The canister's mutable state: the three thread-local cells
`ECZEMA_RESOURCES`, `NEXT_ID` and `ADMIN`. -/
structure State where
  resources : List (Nat × EczemaResource)
  next_id : Nat
  admin : Option Principal
deriving DecidableEq

/-- The state at process start: empty map, `NEXT_ID = 1`, no admin. -/
def initState : State := { resources := [], next_id := 1, admin := none }

/-- `HashMap::get` on the association-list model. -/
def mapGet (k : Nat) : List (Nat × EczemaResource) → Option EczemaResource
  | [] => none
  | (k2, v) :: rest => if k2 = k then some v else mapGet k rest

/-- `HashMap::insert`: replace the value at an existing key, otherwise add
the binding. -/
def mapInsert (k : Nat) (v : EczemaResource) :
    List (Nat × EczemaResource) → List (Nat × EczemaResource)
  | [] => [(k, v)]
  | (k2, v2) :: rest =>
      if k2 = k then (k, v) :: rest else (k2, v2) :: mapInsert k v rest

/-- In-place mutation through `HashMap::get_mut`: rewrite the value bound
to key `k` (keys are unique in a `HashMap`, so rewriting every entry with
that key is the same map). -/
def mapModify (k : Nat) (f : EczemaResource → EczemaResource)
    (m : List (Nat × EczemaResource)) : List (Nat × EczemaResource) :=
  m.map fun p => if p.1 = k then (p.1, f p.2) else p

/-- `HashMap::remove`. -/
def mapRemove (k : Nat) (m : List (Nat × EczemaResource)) :
    List (Nat × EczemaResource) :=
  m.filter fun p => p.1 != k

/-- Rust `str::to_lowercase`, character-wise. -/
def toLowerStr (s : RStr) : RStr := s.map Char.toLower

/-- Rust `str::contains`: `pat` occurs as a contiguous substring of
`hay`. -/
def containsSub (hay pat : RStr) : Bool := decide (pat <:+: hay)

/-- `fn validate_input` (lib.rs:59-67).  Note the source checks
`title.len()` / `description.len()`, the UTF-8 byte lengths. -/
def validate_input (title description : RStr) : Except EczemaError Unit :=
  if title = [] ∨ 100 < rustLen title then
    Except.error (EczemaError.InvalidInput titleMsg)
  else if description = [] ∨ 500 < rustLen description then
    Except.error (EczemaError.InvalidInput descMsg)
  else
    Except.ok ()

/-- `fn is_admin` (lib.rs:69-71). -/
def is_admin (s : State) (caller : Principal) : Bool :=
  decide (s.admin = some caller)

/-- `fn set_admin` (lib.rs:73-79): unconditionally overwrite the admin. -/
def set_admin (s : State) (caller : Principal) :
    Except EczemaError Unit × State :=
  (Except.ok (), { s with admin := some caller })

/-- `fn create_resource` (lib.rs:81-104). -/
def create_resource (s : State) (now : Nat) (p : CreateResourcePayload) :
    Except EczemaError EczemaResource × State :=
  match validate_input p.title p.description with
  | Except.error e => (Except.error e, s)
  | Except.ok _ =>
    let id := s.next_id
    let resource : EczemaResource :=
      { id := id, title := p.title, description := p.description,
        category := p.category, created_at := now, updated_at := now,
        verified := false }
    (Except.ok resource,
      { s with resources := mapInsert id resource s.resources,
               next_id := s.next_id + 1 })

/-- The resource that a successful `create_resource` builds and stores. -/
def createdResource (s : State) (now : Nat) (p : CreateResourcePayload) :
    EczemaResource :=
  { id := s.next_id, title := p.title, description := p.description,
    category := p.category, created_at := now, updated_at := now,
    verified := false }

/-- `fn get_resource` (lib.rs:106-115). -/
def get_resource (s : State) (id : Nat) : Except EczemaError EczemaResource :=
  match mapGet id s.resources with
  | some r => Except.ok r
  | none => Except.error EczemaError.NotFound

/-- `fn list_resources` (lib.rs:117-126). -/
def list_resources (s : State) : List EczemaResource :=
  s.resources.map Prod.snd

/-- `fn list_resources_by_category` (lib.rs:128-138). -/
def list_resources_by_category (s : State) (category : ResourceCategory) :
    List EczemaResource :=
  (s.resources.map Prod.snd).filter fun r => decide (r.category = category)

/-- `fn update_resource` (lib.rs:140-155): validate first, then look up. -/
def update_resource (s : State) (now : Nat) (id : Nat)
    (p : CreateResourcePayload) : Except EczemaError EczemaResource × State :=
  match validate_input p.title p.description with
  | Except.error e => (Except.error e, s)
  | Except.ok _ =>
    match mapGet id s.resources with
    | some r =>
      let r2 : EczemaResource :=
        { r with title := p.title, description := p.description,
                 category := p.category, updated_at := now }
      (Except.ok r2,
        { s with resources := mapModify id (fun _ => r2) s.resources })
    | none => (Except.error EczemaError.NotFound, s)

/-- The resource produced by a successful update. -/
def updatedAt (r : EczemaResource) (p : CreateResourcePayload) (now : Nat) :
    EczemaResource :=
  { r with title := p.title, description := p.description,
           category := p.category, updated_at := now }

/-- `fn delete_resource` (lib.rs:157-166). -/
def delete_resource (s : State) (id : Nat) : Except EczemaError Unit × State :=
  if (mapGet id s.resources).isSome then
    (Except.ok (), { s with resources := mapRemove id s.resources })
  else
    (Except.error EczemaError.NotFound, s)

/-- The resource produced by a successful verification. -/
def verifiedAt (r : EczemaResource) (now : Nat) : EczemaResource :=
  { r with verified := true, updated_at := now }

/-- `fn verify_resource` (lib.rs:168-185): the caller check comes before
the lookup. -/
def verify_resource (s : State) (now : Nat) (caller : Principal) (id : Nat) :
    Except EczemaError EczemaResource × State :=
  if is_admin s caller then
    match mapGet id s.resources with
    | some r =>
      (Except.ok (verifiedAt r now),
        { s with resources := mapModify id (fun _ => verifiedAt r now) s.resources })
    | none => (Except.error EczemaError.NotFound, s)
  else
    (Except.error EczemaError.Unauthorized, s)

/-- `fn search_resources` (lib.rs:187-201): lowercase the query once, then
keep the resources whose lowercased title or description contains it. -/
def search_resources (s : State) (query : RStr) : List EczemaResource :=
  (s.resources.map Prod.snd).filter fun r =>
    containsSub (toLowerStr r.title) (toLowerStr query) ||
    containsSub (toLowerStr r.description) (toLowerStr query)

/-- A candid-serialized value in stable memory: either the serialized
resources map or the serialized `u64` counter.  Candid decoding is
type-directed, so each decoder below accepts only its own shape. -/
inductive StableData where
  | resData (m : List (Nat × EczemaResource))
  | natData (n : Nat)

/-- `ic_cdk::storage::stable_save`: serializes its argument starting at
offset 0 of stable memory, so whatever was decodable there before is
replaced by the newly saved value. -/
def stable_save (d : StableData) (_mem : Option StableData) :
    Option StableData :=
  some d

/-- `ic_cdk::storage::stable_restore::<(HashMap<u64, EczemaResource>,)>`:
decode the value at offset 0 as the resources map. -/
def restoreResources (mem : Option StableData) :
    Except String (List (Nat × EczemaResource)) :=
  match mem with
  | some (StableData.resData m) => Except.ok m
  | _ => Except.error decodeFailMsg

/-- `ic_cdk::storage::stable_restore::<(u64,)>`: decode the value at
offset 0 as the counter. -/
def restoreNextId (mem : Option StableData) : Except String Nat :=
  match mem with
  | some (StableData.natData n) => Except.ok n
  | _ => Except.error decodeFailMsg

/-- `fn pre_upgrade` (lib.rs:206-210): save the resources map, then save
the counter.  Each `stable_save` writes from offset 0, so the second call
overwrites the first. -/
def pre_upgrade (s : State) : Option StableData :=
  stable_save (StableData.natData s.next_id)
    (stable_save (StableData.resData s.resources) (none : Option StableData))

/-- `fn post_upgrade` (lib.rs:212-219): restore the resources map, then
the counter, both from offset 0; an `Except.error` models the
`.unwrap()` trap on a failed decode.  The fresh process's `ADMIN` cell is
`None` (it is not persisted). -/
def post_upgrade (mem : Option StableData) : Except String State :=
  match restoreResources mem with
  | Except.error e => Except.error e
  | Except.ok m =>
    match restoreNextId mem with
    | Except.error e => Except.error e
    | Except.ok n => Except.ok { resources := m, next_id := n, admin := none }

/-- One externally invokable operation of the store. -/
inductive Op where
  | createOp (now : Nat) (p : CreateResourcePayload)
  | getOp (id : Nat)
  | listOp
  | listByCategoryOp (c : ResourceCategory)
  | searchOp (q : RStr)
  | updateOp (now : Nat) (id : Nat) (p : CreateResourcePayload)
  | deleteOp (id : Nat)
  | verifyOp (now : Nat) (caller : Principal) (id : Nat)
  | setAdminOp (caller : Principal)

/-- The state after running one operation (queries do not mutate). -/
def applyOp (s : State) : Op → State
  | Op.createOp now p => (create_resource s now p).2
  | Op.getOp _ => s
  | Op.listOp => s
  | Op.listByCategoryOp _ => s
  | Op.searchOp _ => s
  | Op.updateOp now id p => (update_resource s now id p).2
  | Op.deleteOp id => (delete_resource s id).2
  | Op.verifyOp now caller id => (verify_resource s now caller id).2
  | Op.setAdminOp caller => (set_admin s caller).2

/-- The store invariant: every entry's key equals its resource's `id`
field, and every key is below `next_id`. -/
def Inv (s : State) : Prop :=
  ∀ p ∈ s.resources, p.2.id = p.1 ∧ p.1 < s.next_id

/-- The spec's search predicate: the query occurs case-insensitively in
the title or in the description. -/
def caseInsensitiveMatch (q : RStr) (r : EczemaResource) : Prop :=
  toLowerStr q <:+: toLowerStr r.title ∨
  toLowerStr q <:+: toLowerStr r.description

/-- A concrete valid payload, for witnesses. -/
def samplePayload : CreateResourcePayload :=
  { title := ['a'], description := ['b'],
    category := ResourceCategory.Treatment }

/-- A concrete invalid payload (empty title), for witnesses. -/
def badPayload : CreateResourcePayload :=
  { title := [], description := ['b'],
    category := ResourceCategory.Treatment }

/-- A concrete stored resource, for witnesses. -/
def sampleResource : EczemaResource :=
  { id := 1, title := ['a'], description := ['b'],
    category := ResourceCategory.Treatment, created_at := 3, updated_at := 3,
    verified := false }

/-- A concrete populated store with admin `5`, for witnesses. -/
def sampleState : State :=
  { resources := [(1, sampleResource)], next_id := 2, admin := some 5 }

/-- A title of 51 copies of `é`: 51 characters but 102 UTF-8 bytes. -/
def cexTitle : RStr := List.replicate 51 'é'

/-- A one-character description, for the validation counterexample. -/
def cexDescription : RStr := ['x']

/-! ### Helper lemmas about the map model and the operations -/

theorem rustLen_eq_zero_iff (s : RStr) : rustLen s = 0 ↔ s = [] := by
  cases s with
  | nil => simp [rustLen]
  | cons c cs =>
    have hc := Char.utf8Size_pos c
    simp only [rustLen, List.map_cons, List.sum_cons]
    constructor
    · intro h
      omega
    · intro h
      exact absurd h (List.cons_ne_nil c cs)

theorem mapGet_mapInsert_self (k : Nat) (v : EczemaResource)
    (m : List (Nat × EczemaResource)) :
    mapGet k (mapInsert k v m) = some v := by
  induction m with
  | nil => simp [mapGet, mapInsert]
  | cons p rest ih =>
    obtain ⟨k2, v2⟩ := p
    by_cases h : k2 = k
    · simp [mapInsert, mapGet, h]
    · simp [mapInsert, mapGet, h, ih]

theorem mapGet_some_mem (k : Nat) (v : EczemaResource)
    (m : List (Nat × EczemaResource)) (h : mapGet k m = some v) :
    (k, v) ∈ m := by
  induction m with
  | nil => simp [mapGet] at h
  | cons p rest ih =>
    obtain ⟨k2, v2⟩ := p
    by_cases hk : k2 = k
    · subst hk
      simp [mapGet] at h
      subst h
      exact List.mem_cons_self _ _
    · simp only [mapGet, if_neg hk] at h
      exact List.mem_cons_of_mem _ (ih h)

theorem mem_mapInsert (k : Nat) (v : EczemaResource)
    (m : List (Nat × EczemaResource)) (p : Nat × EczemaResource)
    (h : p ∈ mapInsert k v m) : p = (k, v) ∨ p ∈ m := by
  induction m with
  | nil => simpa [mapInsert] using h
  | cons q rest ih =>
    obtain ⟨k2, v2⟩ := q
    by_cases hk : k2 = k
    · rw [mapInsert, if_pos hk] at h
      rcases List.mem_cons.mp h with h2 | h2
      · exact Or.inl h2
      · exact Or.inr (List.mem_cons_of_mem _ h2)
    · rw [mapInsert, if_neg hk] at h
      rcases List.mem_cons.mp h with h2 | h2
      · exact Or.inr (h2 ▸ List.mem_cons_self _ _)
      · rcases ih h2 with h3 | h3
        · exact Or.inl h3
        · exact Or.inr (List.mem_cons_of_mem _ h3)

theorem mapModify_cons (k : Nat) (f : EczemaResource → EczemaResource)
    (k2 : Nat) (v2 : EczemaResource) (rest : List (Nat × EczemaResource)) :
    mapModify k f ((k2, v2) :: rest)
      = (if k2 = k then (k2, f v2) else (k2, v2)) :: mapModify k f rest := rfl

theorem mapGet_mapModify_self (k : Nat)
    (f : EczemaResource → EczemaResource) (m : List (Nat × EczemaResource)) :
    mapGet k (mapModify k f m) = (mapGet k m).map f := by
  induction m with
  | nil => rfl
  | cons q rest ih =>
    obtain ⟨k2, v2⟩ := q
    rw [mapModify_cons]
    by_cases hk : k2 = k
    · rw [if_pos hk]
      subst hk
      simp [mapGet]
    · rw [if_neg hk]
      simpa [mapGet, hk] using ih

theorem mapGet_mapModify_ne (k j : Nat)
    (f : EczemaResource → EczemaResource) (m : List (Nat × EczemaResource))
    (h : j ≠ k) : mapGet j (mapModify k f m) = mapGet j m := by
  induction m with
  | nil => rfl
  | cons q rest ih =>
    obtain ⟨k2, v2⟩ := q
    rw [mapModify_cons]
    by_cases hk : k2 = k
    · rw [if_pos hk]
      have hj : k2 ≠ j := fun hj2 => h (hj2.symm.trans hk)
      simpa [mapGet, hj] using ih
    · rw [if_neg hk]
      by_cases hj : k2 = j
      · simp [mapGet, hj]
      · simpa [mapGet, hj] using ih

theorem validate_input_numeric (t d : RStr) :
    validate_input t d =
      (if rustLen t = 0 ∨ 100 < rustLen t then
        Except.error (EczemaError.InvalidInput titleMsg)
      else if rustLen d = 0 ∨ 500 < rustLen d then
        Except.error (EczemaError.InvalidInput descMsg)
      else Except.ok ()) := by
  unfold validate_input
  simp only [rustLen_eq_zero_iff]

theorem validate_input_eq_ok (t d : RStr) :
    validate_input t d = Except.ok () ↔
      (1 ≤ rustLen t ∧ rustLen t ≤ 100 ∧ 1 ≤ rustLen d ∧ rustLen d ≤ 500) := by
  rw [validate_input_numeric]
  by_cases h1 : rustLen t = 0 ∨ 100 < rustLen t
  · rw [if_pos h1]
    constructor
    · intro h
      simp at h
    · rintro ⟨ha, hb, hc, hd⟩
      exfalso
      rcases h1 with h1 | h1 <;> omega
  · rw [if_neg h1]
    by_cases h2 : rustLen d = 0 ∨ 500 < rustLen d
    · rw [if_pos h2]
      constructor
      · intro h
        simp at h
      · rintro ⟨ha, hb, hc, hd⟩
        exfalso
        rcases h2 with h2 | h2 <;> omega
    · rw [if_neg h2]
      constructor
      · intro _
        push_neg at h1 h2
        exact ⟨by omega, by omega, by omega, by omega⟩
      · intro _
        rfl

theorem validate_input_eq_titleErr (t d : RStr) :
    validate_input t d = Except.error (EczemaError.InvalidInput titleMsg) ↔
      (rustLen t = 0 ∨ 100 < rustLen t) := by
  rw [validate_input_numeric]
  by_cases h1 : rustLen t = 0 ∨ 100 < rustLen t
  · rw [if_pos h1]
    simp [h1]
  · rw [if_neg h1]
    by_cases h2 : rustLen d = 0 ∨ 500 < rustLen d
    · rw [if_pos h2]
      constructor
      · intro h
        simp only [Except.error.injEq, EczemaError.InvalidInput.injEq] at h
        have hne : descMsg ≠ titleMsg := by decide
        exact absurd h hne
      · intro h
        exact absurd h h1
    · rw [if_neg h2]
      constructor
      · intro h
        simp at h
      · intro h
        exact absurd h h1

theorem validate_input_eq_descErr (t d : RStr) :
    validate_input t d = Except.error (EczemaError.InvalidInput descMsg) ↔
      (¬(rustLen t = 0 ∨ 100 < rustLen t) ∧
        (rustLen d = 0 ∨ 500 < rustLen d)) := by
  rw [validate_input_numeric]
  by_cases h1 : rustLen t = 0 ∨ 100 < rustLen t
  · rw [if_pos h1]
    constructor
    · intro h
      simp only [Except.error.injEq, EczemaError.InvalidInput.injEq] at h
      have hne : titleMsg ≠ descMsg := by decide
      exact absurd h hne
    · intro h
      exact absurd h1 h.1
  · rw [if_neg h1]
    by_cases h2 : rustLen d = 0 ∨ 500 < rustLen d
    · rw [if_pos h2]
      simp [h1, h2]
    · rw [if_neg h2]
      constructor
      · intro h
        simp at h
      · intro h
        exact absurd h.2 h2

theorem validate_input_error_shape (t d : RStr) (e : EczemaError)
    (h : validate_input t d = Except.error e) :
    ∃ m, e = EczemaError.InvalidInput m := by
  rw [validate_input_numeric] at h
  by_cases h1 : rustLen t = 0 ∨ 100 < rustLen t
  · rw [if_pos h1] at h
    simp only [Except.error.injEq] at h
    exact ⟨titleMsg, h.symm⟩
  · rw [if_neg h1] at h
    by_cases h2 : rustLen d = 0 ∨ 500 < rustLen d
    · rw [if_pos h2] at h
      simp only [Except.error.injEq] at h
      exact ⟨descMsg, h.symm⟩
    · rw [if_neg h2] at h
      simp at h

theorem create_resource_of_error (s : State) (now : Nat)
    (p : CreateResourcePayload) (e : EczemaError)
    (h : validate_input p.title p.description = Except.error e) :
    create_resource s now p = (Except.error e, s) := by
  unfold create_resource
  rw [h]

theorem create_resource_of_ok (s : State) (now : Nat)
    (p : CreateResourcePayload)
    (h : validate_input p.title p.description = Except.ok ()) :
    create_resource s now p =
      (Except.ok (createdResource s now p),
        { s with
            resources := mapInsert s.next_id (createdResource s now p) s.resources,
            next_id := s.next_id + 1 }) := by
  unfold create_resource
  rw [h]
  rfl

theorem update_resource_of_error (s : State) (now id : Nat)
    (p : CreateResourcePayload) (e : EczemaError)
    (h : validate_input p.title p.description = Except.error e) :
    update_resource s now id p = (Except.error e, s) := by
  unfold update_resource
  rw [h]

theorem update_resource_of_ok_none (s : State) (now id : Nat)
    (p : CreateResourcePayload)
    (h1 : validate_input p.title p.description = Except.ok ())
    (h2 : mapGet id s.resources = none) :
    update_resource s now id p = (Except.error EczemaError.NotFound, s) := by
  unfold update_resource
  rw [h1, h2]

theorem update_resource_of_ok_some (s : State) (now id : Nat)
    (p : CreateResourcePayload) (r : EczemaResource)
    (h1 : validate_input p.title p.description = Except.ok ())
    (h2 : mapGet id s.resources = some r) :
    update_resource s now id p =
      (Except.ok (updatedAt r p now),
        { s with
            resources := mapModify id (fun _ => updatedAt r p now) s.resources }) := by
  unfold update_resource
  rw [h1, h2]
  rfl

theorem delete_resource_of_some (s : State) (id : Nat)
    (h : (mapGet id s.resources).isSome = true) :
    delete_resource s id =
      (Except.ok (), { s with resources := mapRemove id s.resources }) := by
  unfold delete_resource
  rw [if_pos h]

theorem delete_resource_of_none (s : State) (id : Nat)
    (h : (mapGet id s.resources).isSome = false) :
    delete_resource s id = (Except.error EczemaError.NotFound, s) := by
  unfold delete_resource
  rw [if_neg (by simp [h])]

theorem verify_resource_of_not_admin (s : State) (now : Nat)
    (caller : Principal) (id : Nat) (h : is_admin s caller = false) :
    verify_resource s now caller id
      = (Except.error EczemaError.Unauthorized, s) := by
  unfold verify_resource
  rw [if_neg (by simp [h])]

theorem verify_resource_of_admin_some (s : State) (now : Nat)
    (caller : Principal) (id : Nat) (r : EczemaResource)
    (h1 : is_admin s caller = true) (h2 : mapGet id s.resources = some r) :
    verify_resource s now caller id =
      (Except.ok (verifiedAt r now),
        { s with
            resources := mapModify id (fun _ => verifiedAt r now) s.resources }) := by
  unfold verify_resource
  rw [if_pos (by simp [h1]), h2]

theorem verify_resource_of_admin_none (s : State) (now : Nat)
    (caller : Principal) (id : Nat)
    (h1 : is_admin s caller = true) (h2 : mapGet id s.resources = none) :
    verify_resource s now caller id = (Except.error EczemaError.NotFound, s) := by
  unfold verify_resource
  rw [if_pos (by simp [h1]), h2]

theorem Inv_create (s : State) (now : Nat) (p : CreateResourcePayload)
    (h : Inv s) : Inv (create_resource s now p).2 := by
  cases hv : validate_input p.title p.description with
  | error e =>
    rw [create_resource_of_error s now p e hv]
    exact h
  | ok u =>
    cases u
    rw [create_resource_of_ok s now p hv]
    unfold Inv
    intro q hq
    rcases mem_mapInsert _ _ _ _ hq with h1 | h1
    · subst h1
      exact ⟨rfl, Nat.lt_succ_self _⟩
    · rcases h q h1 with ⟨h2, h3⟩
      exact ⟨h2, Nat.lt_succ_of_lt h3⟩

theorem Inv_update (s : State) (now id : Nat) (p : CreateResourcePayload)
    (h : Inv s) : Inv (update_resource s now id p).2 := by
  cases hv : validate_input p.title p.description with
  | error e =>
    rw [update_resource_of_error s now id p e hv]
    exact h
  | ok u =>
    cases u
    cases hg : mapGet id s.resources with
    | none =>
      rw [update_resource_of_ok_none s now id p hv hg]
      exact h
    | some r =>
      have hid : r.id = id := (h (id, r) (mapGet_some_mem id r s.resources hg)).1
      rw [update_resource_of_ok_some s now id p r hv hg]
      unfold Inv
      intro q hq
      simp only [mapModify, List.mem_map] at hq
      obtain ⟨q0, hq0, hq1⟩ := hq
      rcases h q0 hq0 with ⟨ha, hb⟩
      by_cases hk : q0.1 = id
      · rw [if_pos hk] at hq1
        subst hq1
        refine ⟨?_, hb⟩
        show (updatedAt r p now).id = q0.1
        rw [show (updatedAt r p now).id = r.id from rfl, hid, hk]
      · rw [if_neg hk] at hq1
        subst hq1
        exact ⟨ha, hb⟩

theorem Inv_delete (s : State) (id : Nat) (h : Inv s) :
    Inv (delete_resource s id).2 := by
  cases hg : (mapGet id s.resources).isSome with
  | true =>
    rw [delete_resource_of_some s id hg]
    unfold Inv
    intro q hq
    rw [mapRemove] at hq
    exact h q (List.mem_filter.mp hq).1
  | false =>
    rw [delete_resource_of_none s id hg]
    exact h

theorem Inv_verify (s : State) (now : Nat) (caller : Principal) (id : Nat)
    (h : Inv s) : Inv (verify_resource s now caller id).2 := by
  cases ha : is_admin s caller with
  | false =>
    rw [verify_resource_of_not_admin s now caller id ha]
    exact h
  | true =>
    cases hg : mapGet id s.resources with
    | none =>
      rw [verify_resource_of_admin_none s now caller id ha hg]
      exact h
    | some r =>
      have hid : r.id = id := (h (id, r) (mapGet_some_mem id r s.resources hg)).1
      rw [verify_resource_of_admin_some s now caller id r ha hg]
      unfold Inv
      intro q hq
      simp only [mapModify, List.mem_map] at hq
      obtain ⟨q0, hq0, hq1⟩ := hq
      rcases h q0 hq0 with ⟨ha2, hb2⟩
      by_cases hk : q0.1 = id
      · rw [if_pos hk] at hq1
        subst hq1
        refine ⟨?_, hb2⟩
        show (verifiedAt r now).id = q0.1
        rw [show (verifiedAt r now).id = r.id from rfl, hid, hk]
      · rw [if_neg hk] at hq1
        subst hq1
        exact ⟨ha2, hb2⟩

theorem create_resource_next_id (s : State) (now : Nat)
    (p : CreateResourcePayload) :
    (create_resource s now p).2.next_id = s.next_id ∨
    (create_resource s now p).2.next_id = s.next_id + 1 := by
  cases hv : validate_input p.title p.description with
  | error e =>
    rw [create_resource_of_error s now p e hv]
    exact Or.inl rfl
  | ok u =>
    cases u
    rw [create_resource_of_ok s now p hv]
    exact Or.inr rfl

theorem update_resource_next_id (s : State) (now id : Nat)
    (p : CreateResourcePayload) :
    (update_resource s now id p).2.next_id = s.next_id := by
  cases hv : validate_input p.title p.description with
  | error e => rw [update_resource_of_error s now id p e hv]
  | ok u =>
    cases u
    cases hg : mapGet id s.resources with
    | none => rw [update_resource_of_ok_none s now id p hv hg]
    | some r => rw [update_resource_of_ok_some s now id p r hv hg]

theorem delete_resource_next_id (s : State) (id : Nat) :
    (delete_resource s id).2.next_id = s.next_id := by
  cases hg : (mapGet id s.resources).isSome with
  | true => rw [delete_resource_of_some s id hg]
  | false => rw [delete_resource_of_none s id hg]

theorem verify_resource_next_id (s : State) (now : Nat) (caller : Principal)
    (id : Nat) : (verify_resource s now caller id).2.next_id = s.next_id := by
  cases ha : is_admin s caller with
  | false => rw [verify_resource_of_not_admin s now caller id ha]
  | true =>
    cases hg : mapGet id s.resources with
    | none => rw [verify_resource_of_admin_none s now caller id ha hg]
    | some r => rw [verify_resource_of_admin_some s now caller id r ha hg]

theorem create_resource_fst_error (s : State) (now : Nat)
    (p : CreateResourcePayload) (e : EczemaError) :
    (create_resource s now p).1 = Except.error e ↔
      validate_input p.title p.description = Except.error e := by
  cases hv : validate_input p.title p.description with
  | error e2 =>
    rw [create_resource_of_error s now p e2 hv]
    simp
  | ok u =>
    cases u
    rw [create_resource_of_ok s now p hv]
    simp

theorem update_resource_fst_invalid (s : State) (now id : Nat)
    (p : CreateResourcePayload) (m : String) :
    (update_resource s now id p).1
        = Except.error (EczemaError.InvalidInput m) ↔
      validate_input p.title p.description
        = Except.error (EczemaError.InvalidInput m) := by
  cases hv : validate_input p.title p.description with
  | error e2 =>
    rw [update_resource_of_error s now id p e2 hv]
    simp
  | ok u =>
    cases u
    cases hg : mapGet id s.resources with
    | some r =>
      rw [update_resource_of_ok_some s now id p r hv hg]
      simp
    | none =>
      rw [update_resource_of_ok_none s now id p hv hg]
      simp

/-! ### Claim theorems -/

/-- Claim C1: in `pre_upgrade` the second `stable_save` rewrites stable
memory from offset 0, replacing the serialized resources map with the
serialized counter, so `post_upgrade` can never decode the resources map
and fails for every store state: the snapshot/restore round trip does not
reproduce the store. -/
theorem C1_upgrade_roundtrip_fails (s : State) :
    post_upgrade (pre_upgrade s) = Except.error decodeFailMsg := rfl

/-- Claim C2: on valid input, `create_resource` returns the resource with
`id = next_id`, `created_at = updated_at = now`, `verified = false`, the
payload's fields, inserts exactly that resource under that id, increments
`next_id` by one, leaves `admin` alone, and a subsequent `get_resource` on
the returned id yields the returned resource. -/
theorem C2_create_resource_correct (s : State) (now : Nat)
    (p : CreateResourcePayload)
    (h : validate_input p.title p.description = Except.ok ()) :
    (create_resource s now p).1 = Except.ok (createdResource s now p) ∧
    (create_resource s now p).2.resources
      = mapInsert s.next_id (createdResource s now p) s.resources ∧
    (create_resource s now p).2.next_id = s.next_id + 1 ∧
    (create_resource s now p).2.admin = s.admin ∧
    (createdResource s now p).id = s.next_id ∧
    (createdResource s now p).title = p.title ∧
    (createdResource s now p).description = p.description ∧
    (createdResource s now p).category = p.category ∧
    (createdResource s now p).created_at = now ∧
    (createdResource s now p).updated_at = now ∧
    (createdResource s now p).verified = false ∧
    get_resource (create_resource s now p).2 (createdResource s now p).id
      = Except.ok (createdResource s now p) := by
  have hc := create_resource_of_ok s now p h
  refine ⟨by rw [hc], by rw [hc], by rw [hc], by rw [hc], rfl, rfl, rfl, rfl,
    rfl, rfl, rfl, ?_⟩
  rw [hc]
  unfold get_resource
  rw [show (createdResource s now p).id = s.next_id from rfl]
  show (match mapGet s.next_id (mapInsert s.next_id (createdResource s now p) s.resources) with
    | some r => Except.ok r
    | none => Except.error EczemaError.NotFound) = _
  rw [mapGet_mapInsert_self]

/-- Witness for C2 at a concrete valid payload on the initial store. -/
theorem C2_create_resource_correct_witness :
    (create_resource initState 0 samplePayload).1
      = Except.ok (createdResource initState 0 samplePayload) :=
  (C2_create_resource_correct initState 0 samplePayload rfl).1

/-- Claim C3, counterexample: a title of 51 characters (each 2 UTF-8
bytes) is within the claimed 1-100 character bounds, and the description
is within 1-500 characters, yet `validate_input` rejects the title —
the source checks `title.len()`, the byte length. -/
theorem C3_counterexample_chars_within_bounds_rejected :
    1 ≤ cexTitle.length ∧ cexTitle.length ≤ 100 ∧
    1 ≤ cexDescription.length ∧ cexDescription.length ≤ 500 ∧
    validate_input cexTitle cexDescription
      = Except.error (EczemaError.InvalidInput titleMsg) := by
  refine ⟨by decide, by decide, by decide, by decide, ?_⟩
  rfl

/-- Claim C3, amended: `create_resource` and `update_resource` return a
validation error exactly when the title's length in UTF-8 bytes is
outside [1,100] or the description's length in UTF-8 bytes is outside
[1,500] (which coincides with the character count only for ASCII text),
the error message identifies the failing field, and otherwise validation
passes. -/
theorem C3_validation_measures_bytes (s : State) (now id : Nat)
    (p : CreateResourcePayload) :
    ((create_resource s now p).1
        = Except.error (EczemaError.InvalidInput titleMsg)
      ↔ (rustLen p.title < 1 ∨ 100 < rustLen p.title)) ∧
    ((create_resource s now p).1
        = Except.error (EczemaError.InvalidInput descMsg)
      ↔ (1 ≤ rustLen p.title ∧ rustLen p.title ≤ 100 ∧
          (rustLen p.description < 1 ∨ 500 < rustLen p.description))) ∧
    ((update_resource s now id p).1
        = Except.error (EczemaError.InvalidInput titleMsg)
      ↔ (rustLen p.title < 1 ∨ 100 < rustLen p.title)) ∧
    ((update_resource s now id p).1
        = Except.error (EczemaError.InvalidInput descMsg)
      ↔ (1 ≤ rustLen p.title ∧ rustLen p.title ≤ 100 ∧
          (rustLen p.description < 1 ∨ 500 < rustLen p.description))) ∧
    (validate_input p.title p.description = Except.ok ()
      ↔ (1 ≤ rustLen p.title ∧ rustLen p.title ≤ 100 ∧
          1 ≤ rustLen p.description ∧ rustLen p.description ≤ 500)) := by
  refine ⟨?_, ?_, ?_, ?_, validate_input_eq_ok p.title p.description⟩
  · rw [create_resource_fst_error, validate_input_eq_titleErr]
    omega
  · rw [create_resource_fst_error, validate_input_eq_descErr]
    omega
  · rw [update_resource_fst_invalid, validate_input_eq_titleErr]
    omega
  · rw [update_resource_fst_invalid, validate_input_eq_descErr]
    omega

/-- Claim C4: in `update_resource` validation precedes the lookup — a
validation error is returned (with the store unchanged) for every id, and
`NotFound` is returned exactly when the input is valid and the id is
absent. -/
theorem C4_update_validation_precedes_lookup (s : State) (now id : Nat)
    (p : CreateResourcePayload) :
    (∀ e, validate_input p.title p.description = Except.error e →
        update_resource s now id p = (Except.error e, s)) ∧
    ((update_resource s now id p).1 = Except.error EczemaError.NotFound ↔
      (validate_input p.title p.description = Except.ok () ∧
        mapGet id s.resources = none)) := by
  constructor
  · intro e he
    exact update_resource_of_error s now id p e he
  · cases hv : validate_input p.title p.description with
    | error e2 =>
      obtain ⟨m, rfl⟩ := validate_input_error_shape _ _ _ hv
      rw [update_resource_of_error s now id p _ hv]
      simp [hv]
    | ok u =>
      cases u
      cases hg : mapGet id s.resources with
      | some r =>
        rw [update_resource_of_ok_some s now id p r hv hg]
        simp [hg]
      | none =>
        rw [update_resource_of_ok_none s now id p hv hg]
        simp [hv, hg]

/-- Witness for C4: invalid title on an id absent from the empty store
still yields the validation error, not `NotFound`. -/
theorem C4_update_validation_precedes_lookup_witness :
    update_resource initState 0 99 badPayload
      = (Except.error (EczemaError.InvalidInput titleMsg), initState) :=
  (C4_update_validation_precedes_lookup initState 0 99 badPayload).1
    (EczemaError.InvalidInput titleMsg) rfl

/-- Claim C5: `verify_resource` can only succeed when the caller is the
current admin, and while no admin is set it returns `Unauthorized` for
every caller and id, leaving the store unchanged. -/
theorem C5_verify_requires_admin (s : State) (now : Nat)
    (caller : Principal) (id : Nat) :
    ((∃ r, (verify_resource s now caller id).1 = Except.ok r) →
        s.admin = some caller) ∧
    (s.admin = none →
        verify_resource s now caller id
          = (Except.error EczemaError.Unauthorized, s)) := by
  constructor
  · rintro ⟨r, hr⟩
    by_cases h : s.admin = some caller
    · exact h
    · rw [verify_resource_of_not_admin s now caller id (by simp [is_admin, h])] at hr
      simp at hr
  · intro h
    exact verify_resource_of_not_admin s now caller id (by simp [is_admin, h])

/-- Witness for C5: on the initial store (no admin) every caller is
unauthorized. -/
theorem C5_verify_requires_admin_witness :
    verify_resource initState 0 7 3
      = (Except.error EczemaError.Unauthorized, initState) :=
  (C5_verify_requires_admin initState 0 7 3).2 rfl

/-- Claim C6: whenever `create_resource` returns an error the whole store
state is unchanged — no id is consumed and the map is untouched. -/
theorem C6_create_error_preserves_state (s : State) (now : Nat)
    (p : CreateResourcePayload) (e : EczemaError)
    (h : (create_resource s now p).1 = Except.error e) :
    (create_resource s now p).2 = s := by
  cases hv : validate_input p.title p.description with
  | error e2 => rw [create_resource_of_error s now p e2 hv]
  | ok u =>
    cases u
    rw [create_resource_of_ok s now p hv] at h
    simp at h

/-- Witness for C6: a failed create on the initial store leaves it
intact. -/
theorem C6_create_error_preserves_state_witness :
    (create_resource initState 0 badPayload).2 = initState :=
  C6_create_error_preserves_state initState 0 badPayload
    (EczemaError.InvalidInput titleMsg) rfl

/-- Claim C7: a successful `verify_resource` by the admin sets
`verified := true` and `updated_at := now` on the target resource,
changes none of its other fields, and leaves every other stored resource,
`next_id` and `admin` unchanged. -/
theorem C7_verify_success_frame (s : State) (now : Nat)
    (caller : Principal) (id : Nat) (r : EczemaResource)
    (hadm : s.admin = some caller) (hr : mapGet id s.resources = some r) :
    (verify_resource s now caller id).1 = Except.ok (verifiedAt r now) ∧
    mapGet id (verify_resource s now caller id).2.resources
      = some (verifiedAt r now) ∧
    (∀ k, k ≠ id →
      mapGet k (verify_resource s now caller id).2.resources
        = mapGet k s.resources) ∧
    (verify_resource s now caller id).2.next_id = s.next_id ∧
    (verify_resource s now caller id).2.admin = s.admin ∧
    (verifiedAt r now).verified = true ∧
    (verifiedAt r now).updated_at = now ∧
    (verifiedAt r now).id = r.id ∧
    (verifiedAt r now).title = r.title ∧
    (verifiedAt r now).description = r.description ∧
    (verifiedAt r now).category = r.category ∧
    (verifiedAt r now).created_at = r.created_at := by
  have hb : is_admin s caller = true := by simp [is_admin, hadm]
  have hv := verify_resource_of_admin_some s now caller id r hb hr
  refine ⟨by rw [hv], ?_, ?_, by rw [hv], by rw [hv], rfl, rfl, rfl, rfl,
    rfl, rfl, rfl⟩
  · rw [hv]
    show mapGet id (mapModify id (fun _ => verifiedAt r now) s.resources)
      = some (verifiedAt r now)
    rw [mapGet_mapModify_self, hr]
    rfl
  · intro k hk
    rw [hv]
    show mapGet k (mapModify id (fun _ => verifiedAt r now) s.resources)
      = mapGet k s.resources
    exact mapGet_mapModify_ne id k (fun _ => verifiedAt r now) s.resources hk

/-- Witness for C7 on a concrete store with one resource and admin 5. -/
theorem C7_verify_success_frame_witness :
    (verify_resource sampleState 9 5 1).1
      = Except.ok (verifiedAt sampleResource 9) :=
  (C7_verify_success_frame sampleState 9 5 1 sampleResource rfl rfl).1

/-- Claim C8: `search_resources` returns exactly the stored resources
whose lowercased title or description contains the lowercased query as a
substring, and the empty query returns every stored resource. -/
theorem C8_search_characterization (s : State) (q : RStr) :
    (∀ r, r ∈ search_resources s q ↔
        r ∈ list_resources s ∧ caseInsensitiveMatch q r) ∧
    search_resources s [] = list_resources s := by
  constructor
  · intro r
    unfold search_resources list_resources caseInsensitiveMatch
    rw [List.mem_filter]
    simp [containsSub]
  · unfold search_resources list_resources
    apply List.filter_eq_self.mpr
    intro r hr
    simp [containsSub, toLowerStr, List.nil_infix]

/-- Claim C9: every operation preserves the invariant that each key of
the map equals the `id` field of the resource stored under it and is
below `next_id`; `next_id` never decreases, a successful create issues
exactly the old `next_id` and advances the counter by one, and delete
leaves the counter unchanged, so ids are never reused. -/
theorem C9_store_invariants (s : State) (op : Op) (h : Inv s) :
    Inv (applyOp s op) ∧
    s.next_id ≤ (applyOp s op).next_id ∧
    (∀ now p, op = Op.createOp now p →
      validate_input p.title p.description = Except.ok () →
      (create_resource s now p).1 = Except.ok (createdResource s now p) ∧
      (createdResource s now p).id = s.next_id ∧
      (applyOp s op).next_id = s.next_id + 1) ∧
    (∀ id, op = Op.deleteOp id → (applyOp s op).next_id = s.next_id) := by
  refine ⟨?_, ?_, ?_, ?_⟩
  · cases op with
    | createOp now p => exact Inv_create s now p h
    | getOp id => exact h
    | listOp => exact h
    | listByCategoryOp c => exact h
    | searchOp q => exact h
    | updateOp now id p => exact Inv_update s now id p h
    | deleteOp id => exact Inv_delete s id h
    | verifyOp now caller id => exact Inv_verify s now caller id h
    | setAdminOp caller => exact h
  · cases op with
    | createOp now p =>
      have h2 := create_resource_next_id s now p
      show s.next_id ≤ (create_resource s now p).2.next_id
      rcases h2 with h2 | h2 <;> omega
    | getOp id => exact Nat.le_refl _
    | listOp => exact Nat.le_refl _
    | listByCategoryOp c => exact Nat.le_refl _
    | searchOp q => exact Nat.le_refl _
    | updateOp now id p =>
      show s.next_id ≤ (update_resource s now id p).2.next_id
      rw [update_resource_next_id]
    | deleteOp id =>
      show s.next_id ≤ (delete_resource s id).2.next_id
      rw [delete_resource_next_id]
    | verifyOp now caller id =>
      show s.next_id ≤ (verify_resource s now caller id).2.next_id
      rw [verify_resource_next_id]
    | setAdminOp caller => exact Nat.le_refl _
  · rintro now p rfl hval
    refine ⟨?_, rfl, ?_⟩
    · rw [create_resource_of_ok s now p hval]
    · show (create_resource s now p).2.next_id = s.next_id + 1
      rw [create_resource_of_ok s now p hval]
  · rintro id rfl
    show (delete_resource s id).2.next_id = s.next_id
    exact delete_resource_next_id s id

/-- Witness for C9: the initial store satisfies the invariant and it is
preserved by a concrete successful create. -/
theorem C9_store_invariants_witness :
    Inv (applyOp initState (Op.createOp 0 samplePayload)) :=
  (C9_store_invariants initState (Op.createOp 0 samplePayload)
    (fun p hp => absurd hp (List.not_mem_nil p))).1

/-- Claim C10: in `verify_resource` the authorization check precedes the
existence check — any caller other than the current admin gets
`Unauthorized` for every id, present or absent, and the store is
unchanged. -/
theorem C10_verify_auth_before_lookup (s : State) (now : Nat)
    (caller : Principal) (id : Nat) (h : s.admin ≠ some caller) :
    verify_resource s now caller id
      = (Except.error EczemaError.Unauthorized, s) :=
  verify_resource_of_not_admin s now caller id (by simp [is_admin, h])

/-- Witness for C10: with admin 5 set, caller 6 is refused on an absent
id and the store is untouched. -/
theorem C10_verify_auth_before_lookup_witness :
    verify_resource sampleState 0 6 42
      = (Except.error EczemaError.Unauthorized, sampleState) :=
  C10_verify_auth_before_lookup sampleState 0 6 42 (by decide)

end EczemaICP
